import Mathlib

/-!
Verification of the single-file email sender (src/自动发邮件.py).

The program is embedded shallowly:
* Python exceptions are values of `PyError`; a fallible operation returns
  `Except PyError α`; a `try/except Exception` block is a `match` on that value.
* External effects (SMTP connect/login outcome, sendmail outcome, the file
  system, the `quit()` outcome) are oracles passed in as parameters.
* Observable actions (attempted connections, sleeps, sendmail invocations with
  their envelope and serialized message, log lines, the `close()` call in
  `main`) are recorded in an event trace.
* Python lists are mutable; the one mutation in the program
  (`receivers.extend(...)`, where `receivers` aliases the caller-supplied
  `receiver` list) is modelled with a small heap of string-list cells,
  addressed by `Ref`.  `cc` and `bcc` are only read, so they are modelled by
  the value sequences they denote at call time.
-/

set_option autoImplicit false

namespace AutoEmail

/-- A raised Python exception (`Exception`); only its message is observable. -/
structure PyError where
  msg : String
deriving Repr, DecidableEq

/-- File contents (`open(path, "rb").read()`), as a byte list. -/
abbrev Bytes := List Nat

/-- The live SMTP session object; its identity carries no data here. -/
abbrev Client := Unit

/-- Observable actions of the program, in execution order. -/
inductive Event where
  /-- One `SMTP_SSL(...)` + `login(...)` attempt (0-based index). -/
  | connectAttempt (n : Nat)
  /-- `time.sleep(secs)`. -/
  | sleep (secs : Nat)
  /-- The `self.smtp_client.sendmail(envFrom, envTo, msg)` statement (the
      attempt is recorded with its arguments; it may raise). -/
  | sendmailCall (envFrom : String) (envTo : List String) (msg : String)
  /-- The call of `sender.close()` performed by the `with` statement. -/
  | closeInvoked
  /-- `self.smtp_client.quit()`. -/
  | quitCall
  | logInfo (m : String)
  | logWarning (m : String)
  | logError (m : String)
  | logDebug (m : String)
deriving Repr, DecidableEq

/-- MIME subtype chosen for an attachment: `MIMEImage` or `MIMEApplication`. -/
inductive AttKind where
  | image
  | application
deriving Repr, DecidableEq

/-- One part attached to the `MIMEMultipart` container: a `MIMEText` part, or
an attachment part carrying its `Content-Disposition` type and filename. -/
inductive MimePart where
  | text (subtype charset body : String)
  | attachment (kind : AttKind) (content : Bytes) (dispType : String) (filename : String)
deriving Repr, DecidableEq

/-- The `MIMEMultipart('alternative')` message: container subtype, headers in
insertion order (`Subject`, `From`, `To`, optionally `Cc`), attached parts. -/
structure Message where
  subtype : String
  headers : List (String × String)
  parts : List MimePart
deriving Repr, DecidableEq

/-- Deterministic serialization, modelling `message.as_string()`. -/
def AttKind.mime : AttKind → String
  | AttKind.image => "image"
  | AttKind.application => "application/octet-stream"

def renderBytes (b : Bytes) : String :=
  String.intercalate " " (b.map toString)

def MimePart.render : MimePart → String
  | MimePart.text subtype charset body =>
      "Content-Type: text/" ++ subtype ++ "; charset=" ++ charset ++ "\n\n" ++ body ++ "\n"
  | MimePart.attachment kind content disp fname =>
      "Content-Type: " ++ AttKind.mime kind ++ "\nContent-Disposition: " ++ disp ++
      "; filename=" ++ fname ++ "\n\n" ++ renderBytes content ++ "\n"

def Message.asString (m : Message) : String :=
  String.join (m.headers.map (fun hv => hv.1 ++ ": " ++ hv.2 ++ "\n")) ++
  "Content-Type: multipart/" ++ m.subtype ++ "\n" ++
  String.join (m.parts.map (fun pt => "--boundary\n" ++ MimePart.render pt))

/-! ## A heap of mutable string-list cells (Python list objects). -/

abbrev Ref := Nat

abbrev Heap := List (List String)

def heapGet : Heap → Ref → List String
  | [], _ => []
  | v :: _, 0 => v
  | _ :: h, r + 1 => heapGet h r

def heapSet : Heap → Ref → List String → Heap
  | [], _, _ => []
  | _ :: h, 0, v => v :: h
  | x :: h, r + 1, v => x :: heapSet h r v

/-- Allocate a fresh list object holding `v`; its reference is the old size. -/
def heapAlloc (h : Heap) (v : List String) : Ref × Heap :=
  (h.length, h ++ [v])

/-! ## Python truthiness and `int()` on the values the program uses. -/

/-- Truthiness of an `Optional[str]`: `None` and `""` are falsy. -/
def truthyOptStr : Option String → Bool
  | none => false
  | some s => decide (s ≠ "")

/-- Truthiness of an `Optional[List[str]]`: `None` and `[]` are falsy. -/
def truthyOptList : Option (List String) → Bool
  | none => false
  | some l => decide (l ≠ [])

def isSpaceChar (c : Char) : Bool :=
  decide (c = ' ' ∨ c = '\t' ∨ c = '\n' ∨ c = '\r')

/-- A nonempty all-digit run, as a number. -/
def natOfDigits (ds : List Char) : Option Nat :=
  if ds ≠ [] ∧ ds.all Char.isDigit then
    some (ds.foldl (fun acc c => acc * 10 + (c.toNat - 48)) 0)
  else none

/-- `int(s)` on a string: optional surrounding whitespace, optional sign,
then a nonempty digit run; anything else raises `ValueError` (`none`). -/
def pyInt (s : String) : Option Int :=
  let t := ((s.data.dropWhile isSpaceChar).reverse.dropWhile isSpaceChar).reverse
  match t with
  | '-' :: ds => (natOfDigits ds).map (fun n => -(n : Int))
  | '+' :: ds => (natOfDigits ds).map (fun n => (n : Int))
  | ds => (natOfDigits ds).map (fun n => (n : Int))

/-! ## `EmailConfig` (lines 35-47). -/

/-- The process environment: the four variables the program reads
(`SMTP_SERVER`, `SMTP_PORT`, `EMAIL`, `EMAIL_PASSWORD`); `none` = unset. -/
structure Env where
  smtp_server : Option String := none
  smtp_port : Option String := none
  email : Option String := none
  email_password : Option String := none
deriving Repr, DecidableEq

structure EmailConfig where
  smtp_server : String
  smtp_port : Int
  email : String
  password : String
deriving Repr, DecidableEq

/-- `EmailConfig.__init__`: reads `SMTP_SERVER` (default `smtp.qq.com`),
converts `SMTP_PORT` (default `"465"`) with `int(...)` — which raises on a
non-integer value, before the credential check on line 46 — then raises
unless both `EMAIL` and `EMAIL_PASSWORD` are truthy. -/
def EmailConfig.init (env : Env) : Except PyError EmailConfig :=
  let server := env.smtp_server.getD "smtp.qq.com"
  let portStr := env.smtp_port.getD "465"
  match pyInt portStr with
  | none => Except.error { msg := "invalid literal for int with base 10: " ++ portStr }
  | some port =>
    if truthyOptStr env.email && truthyOptStr env.email_password then
      Except.ok { smtp_server := server, smtp_port := port,
                  email := env.email.getD "", password := env.email_password.getD "" }
    else
      Except.error { msg := "请在.env文件中设置EMAIL和EMAIL_PASSWORD" }

/-! ## `EmailSender` fields (lines 59-62). -/

/-- `self.max_retries = 3`. -/
def max_retries : Nat := 3

/-- `self.retry_delay = 2` (seconds). -/
def retry_delay : Nat := 2

/-! ## `connect` (lines 73-89).

The outcome of one compound `SMTP_SSL(...)` `+` `login(...)` attempt is given
by an oracle: `none` = success, `some e` = the attempt raised `e`. -/

/-- The `for attempt in range(max_retries)` loop of `connect`, recursing over
the remaining attempt indices.  Returns the value `connect` returns (`none`
models the unreachable fall-through of an exhausted `for`, Python `None`)
paired with the event trace. -/
def connectGo (outcome : Nat → Option PyError) : List Nat → Option Bool × List Event
  | [] => (none, [])
  | attempt :: rest =>
    match outcome attempt with
    | none =>
        (some true, [Event.connectAttempt attempt, Event.logInfo "成功连接到SMTP服务器"])
    | some e =>
        if attempt < max_retries - 1 then
          let r := connectGo outcome rest
          (r.1, [Event.connectAttempt attempt,
                 Event.logError ("第" ++ toString (attempt + 1) ++ "次连接失败: " ++ e.msg),
                 Event.sleep retry_delay] ++ r.2)
        else
          (some false, [Event.connectAttempt attempt,
                        Event.logError ("第" ++ toString (attempt + 1) ++ "次连接失败: " ++ e.msg)])

/-- `EmailSender.connect`. -/
def connect (outcome : Nat → Option PyError) : Option Bool × List Event :=
  connectGo outcome (List.range max_retries)

/-! ## Path helpers (`pathlib.Path`). -/

/-- `str.lower()` on the extension: character-wise lower-casing. -/
def lowerString (s : String) : String :=
  String.mk (s.data.map Char.toLower)

/-- `Path(p).name`: the final path component (text after the last separator). -/
def pathName (p : String) : String :=
  String.mk (p.toList.foldl (fun acc c => if c = '/' ∨ c = '\\' then [] else acc ++ [c]) [])

/-- `Path(p).suffix`: from the final component `name`, the text from the last
dot on, provided that dot is neither the first nor the last character. -/
def pathSuffix (p : String) : String :=
  let l := (pathName p).toList
  match ((List.range l.length).filter (fun i => l.get? i = some '.')).getLast? with
  | some i => if 0 < i ∧ i < l.length - 1 then String.mk (l.drop i) else ""
  | none => ""

/-- The extensions classified as images on line 180. -/
def imageExts : List String := [".jpg", ".jpeg", ".png", ".gif"]

/-! ## The file system (`path.exists()`, `open(path, "rb").read()`). -/

structure FS where
  exists_ : String → Bool
  read : String → Except PyError Bytes

/-! ## `_add_attachment` (lines 168-194). -/

/-- `_add_attachment(message, file_path)`: inside `try/except`, skip (with a
warning) when the path does not exist; read the file — a raised read error is
caught and logged; classify by lower-cased suffix; append the part tagged
`Content-Disposition: attachment; filename=<Path(file_path).name>`. -/
def addAttachment (fs : FS) (parts : List MimePart) (file_path : String) :
    List MimePart × List Event :=
  if fs.exists_ file_path = false then
    (parts, [Event.logWarning ("附件不存在: " ++ file_path)])
  else
    match fs.read file_path with
    | Except.error e => (parts, [Event.logError ("添加附件时发生错误: " ++ e.msg)])
    | Except.ok content =>
        let kind := if lowerString (pathSuffix file_path) ∈ imageExts
                    then AttKind.image else AttKind.application
        (parts ++ [MimePart.attachment kind content "attachment" (pathName file_path)],
         [Event.logDebug ("成功添加附件: " ++ pathName file_path)])

/-- The `for attachment_path in attachments` loop (lines 144-145). -/
def addAttachments (fs : FS) (acc : List MimePart × List Event) :
    List String → List MimePart × List Event
  | [] => acc
  | p :: rest =>
      let r := addAttachment fs acc.1 p
      addAttachments fs (r.1, acc.2 ++ r.2) rest

/-! ## `send_email` (lines 91-166). -/

/-- The `receiver` argument: `Union[str, List[str]]`; a list argument is a
reference to a caller-owned list object on the heap. -/
inductive ReceiverArg where
  | str (s : String)
  | list (r : Ref)
deriving Repr, DecidableEq

/-- The arguments of `send_email`, with the defaults of the source. -/
structure SendArgs where
  receiver : ReceiverArg
  subject : String
  content : String
  attachments : Option (List String) := none
  html_content : Option String := none
  sender_name : String := ""
  receiver_name : String := ""
  cc : Option (List String) := none
  bcc : Option (List String) := none
deriving Repr, DecidableEq

def joinComma (l : List String) : String := String.intercalate ", " l

/-- Lines 136-140: the plain-text part, then the HTML part when
`html_content` is truthy. -/
def textParts (a : SendArgs) : List MimePart :=
  [MimePart.text "plain" "utf-8" a.content] ++
  (if truthyOptStr a.html_content
   then [MimePart.text "html" "utf-8" (a.html_content.getD "")] else [])

/-- Result of lines 119-145: the built message, the reference of the
`receivers` list, the heap after the `extend` calls, and the events of the
attachment loop. -/
structure BuildOut where
  msg : Message
  recvRef : Ref
  heap : Heap
  events : List Event
deriving Repr, DecidableEq

/-- Lines 119-145 of `send_email`: build the `MIMEMultipart('alternative')`
message and the `receivers` list.  `receivers = [receiver]` allocates a fresh
list for a string argument and aliases the caller's list otherwise; the `To`
header is set before `cc`/`bcc` are appended; `if cc:` / `if bcc:` /
`if html_content:` / `if attachments:` follow Python truthiness. -/
def buildMessage (fs : FS) (cfg : EmailConfig) (a : SendArgs) (h0 : Heap) : BuildOut :=
  let fromHeader := if a.sender_name ≠ "" then a.sender_name ++ "<" ++ cfg.email ++ ">"
                    else cfg.email
  let rh :=
    match a.receiver with
    | ReceiverArg.str s => heapAlloc h0 [s]
    | ReceiverArg.list r => (r, h0)
  let recvRef := rh.1
  let h1 := rh.2
  let toHeader := joinComma (heapGet h1 recvRef)
  let ccHeaders := if truthyOptList a.cc then [("Cc", joinComma (a.cc.getD []))] else []
  let h2 := if truthyOptList a.cc
            then heapSet h1 recvRef (heapGet h1 recvRef ++ a.cc.getD []) else h1
  let h3 := if truthyOptList a.bcc
            then heapSet h2 recvRef (heapGet h2 recvRef ++ a.bcc.getD []) else h2
  let pa := if truthyOptList a.attachments
            then addAttachments fs (textParts a, []) (a.attachments.getD [])
            else (textParts a, [])
  { msg := { subtype := "alternative",
             headers := [("Subject", a.subject), ("From", fromHeader), ("To", toHeader)]
                        ++ ccHeaders,
             parts := pa.1 },
    recvRef := recvRef, heap := h3, events := pa.2 }

/-- The retry loop of lines 148-162, recursing over the remaining attempt
indices; each attempt executes
`self.smtp_client.sendmail(envFrom, envTo, msgStr)`, whose outcome the oracle
gives (`none` = success). -/
def sendLoopGo (outcome : Nat → Option PyError) (envFrom : String) (envTo : List String)
    (msgStr : String) : List Nat → Option Bool × List Event
  | [] => (none, [])
  | attempt :: rest =>
    match outcome attempt with
    | none =>
        (some true, [Event.sendmailCall envFrom envTo msgStr,
                     Event.logInfo ("邮件已成功发送给 " ++ joinComma envTo)])
    | some e =>
        if attempt < max_retries - 1 then
          let r := sendLoopGo outcome envFrom envTo msgStr rest
          (r.1, [Event.sendmailCall envFrom envTo msgStr,
                 Event.logError ("第" ++ toString (attempt + 1) ++ "次发送失败: " ++ e.msg),
                 Event.sleep retry_delay] ++ r.2)
        else
          (some false, [Event.sendmailCall envFrom envTo msgStr,
                        Event.logError ("第" ++ toString (attempt + 1) ++ "次发送失败: " ++ e.msg)])

/-- The `for attempt in range(self.max_retries)` send loop. -/
def sendLoop (outcome : Nat → Option PyError) (envFrom : String) (envTo : List String)
    (msgStr : String) : Option Bool × List Event :=
  sendLoopGo outcome envFrom envTo msgStr (List.range max_retries)

/-- Outcome of one `self.smtp_client.sendmail(...)` statement: with no client
(`self.smtp_client is None`) the attribute access itself raises; otherwise the
transport oracle decides. -/
def attemptOutcome (client : Option Client) (oracle : Nat → Option PyError) :
    Nat → Option PyError :=
  fun attempt =>
    match client with
    | none => some { msg := "AttributeError: NoneType object has no attribute sendmail" }
    | some _ => oracle attempt

structure SendResult where
  result : Except PyError (Option Bool)
  heap : Heap
  events : List Event
deriving Repr

/-- The body of `send_email` inside the outer `try` (lines 118-162): message
construction, the `receivers` extension, then the retried `sendmail`.  Every
raise-capable sub-step (`fs.read`, each `sendmail` attempt) is caught where
the source catches it, so the body itself never raises. -/
def sendEmailTry (fs : FS) (oracle : Nat → Option PyError) (client : Option Client)
    (cfg : EmailConfig) (a : SendArgs) (h0 : Heap) :
    Except PyError (Option Bool × Heap × List Event) :=
  let b := buildMessage fs cfg a h0
  let envTo := heapGet b.heap b.recvRef
  let r := sendLoop (attemptOutcome client oracle) cfg.email envTo (Message.asString b.msg)
  Except.ok (r.1, b.heap, b.events ++ r.2)

/-- `EmailSender.send_email`: the outer `try/except` (lines 118, 164-166)
turns any escaped exception into a logged error and the return value `False`. -/
def sendEmail (fs : FS) (oracle : Nat → Option PyError) (client : Option Client)
    (cfg : EmailConfig) (a : SendArgs) (h0 : Heap) : SendResult :=
  match sendEmailTry fs oracle client cfg a h0 with
  | Except.ok (res, h, evs) => { result := Except.ok res, heap := h, events := evs }
  | Except.error e =>
      { result := Except.ok (some false), heap := h0,
        events := [Event.logError ("发送邮件时发生错误: " ++ e.msg)] }

/-! ## `close` (lines 196-203). -/

/-- The raw `quit()` call plus the success log line, before the `except`:
raises exactly when the quit oracle says so. -/
def quitRaw (q : Option PyError) : Except PyError (List Event) :=
  match q with
  | none => Except.ok [Event.quitCall, Event.logInfo "SMTP连接已关闭"]
  | some e => Except.error e

/-- `EmailSender.close`: a no-op when `self.smtp_client` is falsy (never set);
otherwise `quit()` inside `try/except`, the raised error being logged. -/
def closeRun (client : Option Client) (q : Option PyError) : Except PyError (List Event) :=
  match client with
  | none => Except.ok []
  | some _ =>
      match quitRaw q with
      | Except.ok evs => Except.ok evs
      | Except.error e =>
          Except.ok [Event.quitCall,
                     Event.logError ("关闭SMTP连接时发生错误: " ++ e.msg)]

/-! ## `main` (lines 205-231). -/

/-- Python `with`-statement semantics for `EmailSender`: `__enter__` runs
`connect`, the body runs, and `__exit__` runs `close` whether or not the body
raised; as `__exit__` returns `None`, a body exception then propagates. -/
def pyWith (enterEvs : List Event) (bodyRes : Except PyError (Option Bool))
    (bodyEvs exitEvs : List Event) : Except PyError (Option Bool) × List Event :=
  (bodyRes, enterEvs ++ bodyEvs ++ exitEvs)

/-- The flow of `main` from the point where the sender object exists: the
`with` block around the send step, then the success/failure log, with the
outer `try/except` logging a propagated exception.  The send step is abstract
(`bodyRes`, `bodyEvs`) so that success, returned failure, and a raised
exception are all covered. -/
def mainFlow (connectOutcome : Nat → Option PyError) (bodyRes : Except PyError (Option Bool))
    (bodyEvs : List Event) (client : Option Client) (q : Option PyError) : List Event :=
  let conn := connect connectOutcome
  let exitE := Event.closeInvoked :: ((closeRun client q).toOption.getD [])
  let w := pyWith conn.2 bodyRes bodyEvs exitE
  match w.1 with
  | Except.error e => w.2 ++ [Event.logError ("程序执行出错: " ++ e.msg)]
  | Except.ok b =>
      w.2 ++ [if b = some true then Event.logInfo "邮件发送成功！"
              else Event.logError "邮件发送失败！"]

/-! ## Derived notions used by the statements. -/

/-- The primary recipients: `[receiver]` for a string, the list object's
value for a list argument. -/
def primaryList (a : SendArgs) (h0 : Heap) : List String :=
  match a.receiver with
  | ReceiverArg.str s => [s]
  | ReceiverArg.list r => heapGet h0 r

def isConnectAttempt : Event → Bool
  | Event.connectAttempt _ => true
  | _ => false

def isSleepEv : Event → Bool
  | Event.sleep _ => true
  | _ => false

def isCloseInvoked : Event → Bool
  | Event.closeInvoked => true
  | _ => false

/-! ## Fixtures used by witness statements. -/

/-- A file system on which every path exists with content `[1, 2]`. -/
def fsAll : FS := { exists_ := fun _ => true, read := fun _ => Except.ok [1, 2] }

/-- A file system on which no path exists. -/
def fsNone : FS := { exists_ := fun _ => false, read := fun _ => Except.error { msg := "io" } }

/-- A transport on which every attempt succeeds. -/
def okOracle : Nat → Option PyError := fun _ => none

def cfgW : EmailConfig :=
  { smtp_server := "smtp.qq.com", smtp_port := 465, email := "me@example.com", password := "pw" }

def envW : Env :=
  { smtp_server := none, smtp_port := some "465",
    email := some "me@example.com", email_password := some "pw" }

/-- Environment with non-empty credentials but a non-integer `SMTP_PORT`. -/
def envPortCex : Env :=
  { smtp_server := none, smtp_port := some "abc",
    email := some "user@example.com", email_password := some "secret" }

def argsC1 : SendArgs :=
  { receiver := ReceiverArg.str "to@example.com", subject := "s", content := "c",
    cc := some ["cc@example.com"], bcc := some ["bcc@example.com"] }

def msgC1 : String := Message.asString (buildMessage fsAll cfgW argsC1 []).msg

def argsC5 : SendArgs :=
  { receiver := ReceiverArg.str "to@example.com", subject := "s", content := "c",
    attachments := some ["gone.txt"] }

def argsC6 : SendArgs :=
  { receiver := ReceiverArg.str "to@example.com", subject := "s", content := "c",
    attachments := some ["photo.png"] }

def argsC9 : SendArgs :=
  { receiver := ReceiverArg.str "to@example.com", subject := "s", content := "c" }

def msgC9 : String :=
  Message.asString (buildMessage fsAll cfgW { argsC9 with bcc := none } []).msg

def argsC10 : SendArgs :=
  { receiver := ReceiverArg.list 0, subject := "s", content := "c",
    cc := some ["cc@example.com"], bcc := some ["bcc@example.com"] }

/-! ## Heap lemmas. -/

theorem heapGet_set_self (h : Heap) (r : Ref) (v : List String) (hr : r < h.length) :
    heapGet (heapSet h r v) r = v := by
  induction h generalizing r with
  | nil => simp at hr
  | cons x xs ih =>
    cases r with
    | zero => simp [heapGet, heapSet]
    | succ n =>
      simp only [heapSet, heapGet]
      exact ih n (by simpa using hr)

theorem heapGet_set_ne (h : Heap) (r rr : Ref) (v : List String) (hne : rr ≠ r) :
    heapGet (heapSet h r v) rr = heapGet h rr := by
  induction h generalizing r rr with
  | nil => simp [heapSet]
  | cons x xs ih =>
    cases r with
    | zero =>
      cases rr with
      | zero => exact absurd rfl hne
      | succ m => simp [heapGet, heapSet]
    | succ n =>
      cases rr with
      | zero => simp [heapGet, heapSet]
      | succ m =>
        simp only [heapSet, heapGet]
        exact ih n m (fun hc => hne (congrArg Nat.succ hc))

theorem heapSet_length (h : Heap) (r : Ref) (v : List String) :
    (heapSet h r v).length = h.length := by
  induction h generalizing r with
  | nil => simp [heapSet]
  | cons x xs ih =>
    cases r with
    | zero => simp [heapSet]
    | succ n => simp [heapSet, ih]

theorem heapGet_append_lt (h h2 : Heap) (r : Ref) (hr : r < h.length) :
    heapGet (h ++ h2) r = heapGet h r := by
  induction h generalizing r with
  | nil => simp at hr
  | cons x xs ih =>
    cases r with
    | zero => simp [heapGet]
    | succ n =>
      simp only [List.cons_append, heapGet]
      exact ih n (by simpa using hr)

theorem heapGet_alloc_fresh (h : Heap) (v : List String) :
    heapGet (h ++ [v]) h.length = v := by
  induction h with
  | nil => simp [heapGet]
  | cons x xs ih => simpa [heapGet] using ih

/-! ## Lemmas about one `receivers.extend(...)` step. -/

theorem extendGet (h : Heap) (r : Ref) (ol : Option (List String)) (hr : r < h.length) :
    heapGet (if truthyOptList ol then heapSet h r (heapGet h r ++ ol.getD []) else h) r
      = heapGet h r ++ ol.getD [] := by
  rcases ol with _ | l
  · simp [truthyOptList]
  · by_cases hl : l = []
    · simp [truthyOptList, hl]
    · simp [truthyOptList, hl, heapGet_set_self h r _ hr]

theorem extendLength (h : Heap) (r : Ref) (ol : Option (List String)) :
    (if truthyOptList ol then heapSet h r (heapGet h r ++ ol.getD []) else h).length
      = h.length := by
  by_cases ht : truthyOptList ol <;> simp [ht, heapSet_length]

theorem extendGet_ne (h : Heap) (r rr : Ref) (ol : Option (List String)) (hne : rr ≠ r) :
    heapGet (if truthyOptList ol then heapSet h r (heapGet h r ++ ol.getD []) else h) rr
      = heapGet h rr := by
  by_cases ht : truthyOptList ol <;> simp [ht, heapGet_set_ne h r rr _ hne]

/-! ## Projection lemmas (definitional). -/

theorem buildMessage_events_eq (fs : FS) (cfg : EmailConfig) (a : SendArgs) (h0 : Heap) :
    (buildMessage fs cfg a h0).events
      = (if truthyOptList a.attachments
         then addAttachments fs (textParts a, []) (a.attachments.getD [])
         else (textParts a, [])).2 := rfl

theorem buildMessage_parts_eq (fs : FS) (cfg : EmailConfig) (a : SendArgs) (h0 : Heap) :
    (buildMessage fs cfg a h0).msg.parts
      = (if truthyOptList a.attachments
         then addAttachments fs (textParts a, []) (a.attachments.getD [])
         else (textParts a, [])).1 := rfl

theorem sendEmail_result_eq (fs : FS) (oracle : Nat → Option PyError) (client : Option Client)
    (cfg : EmailConfig) (a : SendArgs) (h0 : Heap) :
    (sendEmail fs oracle client cfg a h0).result
      = Except.ok (sendLoop (attemptOutcome client oracle) cfg.email
          (heapGet (buildMessage fs cfg a h0).heap (buildMessage fs cfg a h0).recvRef)
          (Message.asString (buildMessage fs cfg a h0).msg)).1 := rfl

theorem sendEmail_heap_eq (fs : FS) (oracle : Nat → Option PyError) (client : Option Client)
    (cfg : EmailConfig) (a : SendArgs) (h0 : Heap) :
    (sendEmail fs oracle client cfg a h0).heap = (buildMessage fs cfg a h0).heap := rfl

theorem sendEmail_events_eq (fs : FS) (oracle : Nat → Option PyError) (client : Option Client)
    (cfg : EmailConfig) (a : SendArgs) (h0 : Heap) :
    (sendEmail fs oracle client cfg a h0).events
      = (buildMessage fs cfg a h0).events ++
        (sendLoop (attemptOutcome client oracle) cfg.email
          (heapGet (buildMessage fs cfg a h0).heap (buildMessage fs cfg a h0).recvRef)
          (Message.asString (buildMessage fs cfg a h0).msg)).2 := rfl

/-! ## The receivers list built by `send_email`. -/

theorem buildMessage_recvRef_str (fs : FS) (cfg : EmailConfig) (a : SendArgs) (h0 : Heap)
    (s : String) (ha : a.receiver = ReceiverArg.str s) :
    (buildMessage fs cfg a h0).recvRef = h0.length := by
  simp [buildMessage, ha, heapAlloc]

theorem buildMessage_recvRef_list (fs : FS) (cfg : EmailConfig) (a : SendArgs) (h0 : Heap)
    (r : Ref) (ha : a.receiver = ReceiverArg.list r) :
    (buildMessage fs cfg a h0).recvRef = r := by
  simp [buildMessage, ha]

/-- After lines 124-133, the `receivers` cell holds the primary recipients
followed by `cc` (when truthy) and `bcc` (when truthy); appending the falsy
cases contributes nothing, so the value is uniformly
`primary ++ cc ++ bcc`. -/
theorem buildMessage_envelope (fs : FS) (cfg : EmailConfig) (a : SendArgs) (h0 : Heap)
    (hv : ∀ r, a.receiver = ReceiverArg.list r → r < h0.length) :
    heapGet (buildMessage fs cfg a h0).heap (buildMessage fs cfg a h0).recvRef
      = primaryList a h0 ++ a.cc.getD [] ++ a.bcc.getD [] := by
  cases harg : a.receiver with
  | str s =>
    simp only [buildMessage, harg, heapAlloc, primaryList]
    rw [extendGet _ _ _ (by rw [extendLength]; simp)]
    rw [extendGet _ _ _ (by simp)]
    rw [heapGet_alloc_fresh]
  | list r =>
    have hr : r < h0.length := hv r harg
    simp only [buildMessage, harg, primaryList]
    rw [extendGet _ _ _ (by rw [extendLength]; exact hr)]
    rw [extendGet _ _ _ hr]

/-- With a string `receiver`, only the freshly allocated cell is ever
written: every caller-owned cell keeps its value. -/
theorem buildMessage_frame_str (fs : FS) (cfg : EmailConfig) (a : SendArgs) (h0 : Heap)
    (s : String) (ha : a.receiver = ReceiverArg.str s) (r : Ref) (hr : r < h0.length) :
    heapGet (buildMessage fs cfg a h0).heap r = heapGet h0 r := by
  have hne : r ≠ h0.length := Nat.ne_of_lt hr
  simp only [buildMessage, ha, heapAlloc]
  rw [extendGet_ne _ _ _ _ hne, extendGet_ne _ _ _ _ hne, heapGet_append_lt _ _ _ hr]

/-! ## Loop lemmas. -/

/-- The send retry loop always leaves via a `return` statement: the Python
`None` fall-through of an exhausted `for` is unreachable. -/
theorem sendLoop_returns (o : Nat → Option PyError) (f : String) (envTo : List String)
    (m : String) :
    (sendLoop o f envTo m).1 = some true ∨ (sendLoop o f envTo m).1 = some false := by
  have hr : List.range max_retries = [0, 1, 2] := rfl
  rcases h0 : o 0 with _ | e0 <;> rcases h1 : o 1 with _ | e1 <;> rcases h2 : o 2 with _ | e2 <;>
    simp [sendLoop, sendLoopGo, hr, max_retries, h0, h1, h2]

/-- Every `sendmailCall` event the send retry loop emits carries exactly the
envelope sender, envelope recipients and serialized message it was given. -/
theorem sendLoop_sendmailCall (o : Nat → Option PyError) (f : String) (envTo : List String)
    (m : String) (f2 : String) (to2 : List String) (m2 : String)
    (hmem : Event.sendmailCall f2 to2 m2 ∈ (sendLoop o f envTo m).2) :
    f2 = f ∧ to2 = envTo ∧ m2 = m := by
  have hr : List.range max_retries = [0, 1, 2] := rfl
  rcases h0 : o 0 with _ | e0 <;> rcases h1 : o 1 with _ | e1 <;> rcases h2 : o 2 with _ | e2 <;>
    simp [sendLoop, sendLoopGo, hr, max_retries, h0, h1, h2] at hmem <;> tauto

/-- The send retry loop never emits the `close` call event. -/
theorem sendLoop_no_close (o : Nat → Option PyError) (f : String) (envTo : List String)
    (m : String) :
    (sendLoop o f envTo m).2.countP isCloseInvoked = 0 := by
  have hr : List.range max_retries = [0, 1, 2] := rfl
  rcases h0 : o 0 with _ | e0 <;> rcases h1 : o 1 with _ | e1 <;> rcases h2 : o 2 with _ | e2 <;>
    simp [sendLoop, sendLoopGo, hr, max_retries, h0, h1, h2, isCloseInvoked, List.countP_cons]

/-- The connect loop never emits the `close` call event. -/
theorem connect_no_close (o : Nat → Option PyError) :
    (connect o).2.countP isCloseInvoked = 0 := by
  have hr : List.range max_retries = [0, 1, 2] := rfl
  rcases h0 : o 0 with _ | e0 <;> rcases h1 : o 1 with _ | e1 <;> rcases h2 : o 2 with _ | e2 <;>
    simp [connect, connectGo, hr, max_retries, h0, h1, h2, isCloseInvoked, List.countP_cons]

/-- The events of `closeRun` never include the `close` call marker (that
marker is emitted by `main`, not by `close` itself). -/
theorem closeRun_no_close (client : Option Client) (q : Option PyError) :
    ((closeRun client q).toOption.getD []).countP isCloseInvoked = 0 := by
  cases client <;> cases q <;> rfl

/-! ## Lemmas about the attachment loop. -/

/-- Every event `_add_attachment` emits is a log line. -/
theorem addAttachment_events (fs : FS) (parts : List MimePart) (p : String) (e : Event)
    (he : e ∈ (addAttachment fs parts p).2) :
    (∃ s, e = Event.logWarning s) ∨ (∃ s, e = Event.logError s) ∨
    (∃ s, e = Event.logDebug s) := by
  unfold addAttachment at he
  by_cases hex : fs.exists_ p = false
  · simp [hex] at he
    exact Or.inl ⟨_, he⟩
  · rcases hread : fs.read p with e2 | c <;> simp [hex, hread] at he
    · exact Or.inr (Or.inl ⟨_, he⟩)
    · exact Or.inr (Or.inr ⟨_, he⟩)

/-- The parts accumulated by the attachment loop do not depend on the
accumulated events. -/
theorem addAttachments_fst (fs : FS) :
    ∀ (l : List String) (parts : List MimePart) (evs evs2 : List Event),
      (addAttachments fs (parts, evs) l).1 = (addAttachments fs (parts, evs2) l).1 := by
  intro l
  induction l with
  | nil => intro parts evs evs2; rfl
  | cons p rest ih =>
    intro parts evs evs2
    simp only [addAttachments]
    exact ih _ _ _

/-- Events already accumulated stay in the trace of the attachment loop. -/
theorem addAttachments_events_mono (fs : FS) :
    ∀ (l : List String) (acc : List MimePart × List Event) (e : Event),
      e ∈ acc.2 → e ∈ (addAttachments fs acc l).2 := by
  intro l
  induction l with
  | nil => intro acc e he; exact he
  | cons p rest ih =>
    intro acc e he
    simp only [addAttachments]
    exact ih _ e (List.mem_append_left _ he)

/-- Every event the attachment loop adds is a log line. -/
theorem addAttachments_events_mem (fs : FS) :
    ∀ (l : List String) (acc : List MimePart × List Event) (e : Event),
      e ∈ (addAttachments fs acc l).2 →
      e ∈ acc.2 ∨ (∃ s, e = Event.logWarning s) ∨ (∃ s, e = Event.logError s) ∨
        (∃ s, e = Event.logDebug s) := by
  intro l
  induction l with
  | nil => intro acc e he; exact Or.inl he
  | cons p rest ih =>
    intro acc e he
    simp only [addAttachments] at he
    rcases ih _ e he with hacc | hlog
    · rcases List.mem_append.mp hacc with h1 | h2
      · exact Or.inl h1
      · exact Or.inr (addAttachment_events fs acc.1 p e h2)
    · exact Or.inr hlog

/-- Every part the attachment loop adds comes from an existing, readable path
of the list, classified by suffix and tagged `attachment` with the path's
final-component name. -/
theorem addAttachments_parts_mem (fs : FS) :
    ∀ (l : List String) (acc : List MimePart × List Event) (pt : MimePart),
      pt ∈ (addAttachments fs acc l).1 →
      pt ∈ acc.1 ∨ ∃ p, p ∈ l ∧ fs.exists_ p = true ∧ ∃ c, fs.read p = Except.ok c ∧
        pt = MimePart.attachment
              (if lowerString (pathSuffix p) ∈ imageExts then AttKind.image else AttKind.application)
              c "attachment" (pathName p) := by
  intro l
  induction l with
  | nil => intro acc pt hpt; exact Or.inl hpt
  | cons p rest ih =>
    intro acc pt hpt
    simp only [addAttachments] at hpt
    rcases ih _ pt hpt with hacc | ⟨q, hq, hrest⟩
    · unfold addAttachment at hacc
      by_cases hex : fs.exists_ p = false
      · simp [hex] at hacc
        exact Or.inl hacc
      · rcases hread : fs.read p with e2 | c <;> simp [hex, hread] at hacc
        · exact Or.inl hacc
        · rcases hacc with h1 | h2
          · exact Or.inl h1
          · refine Or.inr ⟨p, List.mem_cons_self p rest, ?_, c, hread, h2⟩
            simpa using hex
    · exact Or.inr ⟨q, List.mem_cons_of_mem p hq, hrest⟩

/-- Removing a non-existing path from the attachment list does not change the
parts the loop produces. -/
theorem addAttachments_erase_missing (fs : FS) (p : String) (hmiss : fs.exists_ p = false) :
    ∀ (l : List String) (parts : List MimePart) (evs : List Event),
      (addAttachments fs (parts, evs) l).1
        = (addAttachments fs (parts, evs) (l.erase p)).1 := by
  intro l
  induction l with
  | nil => intro parts evs; rfl
  | cons q rest ih =>
    intro parts evs
    by_cases hq : q = p
    · subst hq
      rw [List.erase_cons_head]
      simp only [addAttachments, addAttachment, hmiss]
      exact addAttachments_fst fs rest parts _ _
    · rw [List.erase_cons_tail (by simpa using hq)]
      simp only [addAttachments]
      exact ih _ _

/-- A path of the list that does not exist produces its warning line in the
loop's trace. -/
theorem addAttachments_warn (fs : FS) (p : String) (hmiss : fs.exists_ p = false) :
    ∀ (l : List String) (acc : List MimePart × List Event), p ∈ l →
      Event.logWarning ("附件不存在: " ++ p) ∈ (addAttachments fs acc l).2 := by
  intro l
  induction l with
  | nil => intro acc hp; simp at hp
  | cons q rest ih =>
    intro acc hp
    by_cases hq : q = p
    · subst hq
      simp only [addAttachments, addAttachment, hmiss, if_pos rfl]
      exact addAttachments_events_mono fs rest _ _
        (List.mem_append_right _ (List.mem_singleton.mpr rfl))
    · have hp2 : p ∈ rest := by
        rcases List.mem_cons.mp hp with h1 | h2
        · exact absurd h1.symm hq
        · exact h2
      simp only [addAttachments]
      exact ih _ hp2

/-- The text parts of lines 136-140 contain no attachment part. -/
theorem attachment_not_textParts (a : SendArgs) (kind : AttKind) (content : Bytes)
    (disp fname : String) :
    MimePart.attachment kind content disp fname ∉ textParts a := by
  by_cases h : truthyOptStr a.html_content <;> simp [textParts, h]

/-- Every event of the message-construction phase is a log line. -/
theorem buildMessage_events_log (fs : FS) (cfg : EmailConfig) (a : SendArgs) (h0 : Heap)
    (e : Event) (he : e ∈ (buildMessage fs cfg a h0).events) :
    (∃ s, e = Event.logWarning s) ∨ (∃ s, e = Event.logError s) ∨
    (∃ s, e = Event.logDebug s) := by
  rw [buildMessage_events_eq] at he
  by_cases ht : truthyOptList a.attachments
  · rw [if_pos ht] at he
    rcases addAttachments_events_mem fs _ _ e he with hacc | hlog
    · simp at hacc
    · exact hlog
  · rw [if_neg ht] at he
    simp at he

/-! ## C2 -/

/-- C2: `connect()` makes at most 3 connection-and-login attempts (exactly one
when the first succeeds, two when only the second succeeds, three otherwise),
its sleep events are exactly `attempts - 1` sleeps of the fixed 2-second
delay (so none after the last attempt), it returns `True` exactly when one of
the first three attempts succeeds, and `False` exactly when all three fail. -/
theorem connect_retry_policy (o : Nat → Option PyError) :
    (connect o).1 = some (decide (o 0 = none ∨ o 1 = none ∨ o 2 = none)) ∧
    (connect o).2.countP isConnectAttempt
      = (if o 0 = none then 1 else if o 1 = none then 2 else 3) ∧
    (connect o).2.filter isSleepEv
      = List.replicate ((if o 0 = none then 1 else if o 1 = none then 2 else 3) - 1)
          (Event.sleep retry_delay) := by
  have hr : List.range max_retries = [0, 1, 2] := rfl
  rcases h0 : o 0 with _ | e0 <;> rcases h1 : o 1 with _ | e1 <;> rcases h2 : o 2 with _ | e2 <;>
    simp [connect, connectGo, hr, max_retries, retry_delay, h0, h1, h2,
          isConnectAttempt, isSleepEv, List.countP_cons, List.filter_cons]

/-! ## C3 -/

/-- C3: for every input and every behaviour of the file system and transport —
including the case where no connection was ever established (`client = none`,
on which every `sendmail` attempt raises) — `send_email` returns `ok` of a
boolean: no exception escapes, every failure having been caught and converted
into the returned boolean (or into skipping the attachment). -/
theorem sendEmail_no_raise (fs : FS) (oracle : Nat → Option PyError) (client : Option Client)
    (cfg : EmailConfig) (a : SendArgs) (h0 : Heap) :
    ∃ b : Bool, (sendEmail fs oracle client cfg a h0).result = Except.ok (some b) := by
  rcases sendLoop_returns (attemptOutcome client oracle) cfg.email
      (heapGet (buildMessage fs cfg a h0).heap (buildMessage fs cfg a h0).recvRef)
      (Message.asString (buildMessage fs cfg a h0).msg) with hb | hb
  · exact ⟨true, by simp [sendEmail, sendEmailTry, hb]⟩
  · exact ⟨false, by simp [sendEmail, sendEmailTry, hb]⟩

/-! ## C4 -/

/-- C4 (counterexample): with `EMAIL` and `EMAIL_PASSWORD` both non-empty but
`SMTP_PORT` set to the non-integer `"abc"`, construction does not succeed: the
`int(...)` conversion on line 42 raises, contradicting the claim that
construction succeeds whenever account and credential are non-empty. -/
theorem emailConfig_init_cex :
    truthyOptStr envPortCex.email = true ∧ truthyOptStr envPortCex.email_password = true ∧
    EmailConfig.init envPortCex =
      Except.error { msg := "invalid literal for int with base 10: abc" } :=
  ⟨by decide, by decide, rfl⟩

/-- C4 (amended): constructing the configuration with a missing or empty
`EMAIL` or `EMAIL_PASSWORD` always raises at construction time, before any
network activity; when both are non-empty **and** `SMTP_PORT` (when set)
parses as an integer, construction succeeds and yields the configuration with
the given server/port (or their defaults). -/
theorem emailConfig_init_validation (env : Env) :
    ((truthyOptStr env.email = false ∨ truthyOptStr env.email_password = false) →
        ∃ e, EmailConfig.init env = Except.error e) ∧
    (∀ p : Int, truthyOptStr env.email = true → truthyOptStr env.email_password = true →
        pyInt (env.smtp_port.getD "465") = some p →
        EmailConfig.init env = Except.ok
          { smtp_server := env.smtp_server.getD "smtp.qq.com", smtp_port := p,
            email := env.email.getD "", password := env.email_password.getD "" }) := by
  constructor
  · intro hcase
    rcases hp : pyInt (env.smtp_port.getD "465") with _ | p
    · exact ⟨{ msg := "invalid literal for int with base 10: " ++ env.smtp_port.getD "465" },
             by simp [EmailConfig.init, hp]⟩
    · refine ⟨{ msg := "请在.env文件中设置EMAIL和EMAIL_PASSWORD" }, ?_⟩
      rcases hcase with hc | hc <;> simp [EmailConfig.init, hp, hc]
  · intro p he hpw hp
    simp [EmailConfig.init, hp, he, hpw]

/-- C4 (witness): on an environment with both credentials set and
`SMTP_PORT = "465"`, the hypotheses of the amended theorem hold and
construction succeeds with the default server and port 465. -/
theorem emailConfig_init_validation_w :
    truthyOptStr envW.email = true ∧ truthyOptStr envW.email_password = true ∧
    pyInt (envW.smtp_port.getD "465") = some 465 ∧
    EmailConfig.init envW = Except.ok
      { smtp_server := "smtp.qq.com", smtp_port := 465,
        email := "me@example.com", password := "pw" } :=
  ⟨by decide, by decide, by decide,
   (emailConfig_init_validation envW).2 465 (by decide) (by decide) (by decide)⟩

/-! ## C1 -/

/-- C1: on every call of `send_email` (any receiver shape, any cc/bcc, any
transport behaviour), the recipient list handed to every invocation of the
transport's `sendmail` primitive is exactly the primary recipients (the
single string wrapped in a list, or the given list's value) followed by the
cc list (when present) and the bcc list (when present) — their union. -/
theorem sendEmail_recipients (fs : FS) (oracle : Nat → Option PyError)
    (client : Option Client) (cfg : EmailConfig) (a : SendArgs) (h0 : Heap)
    (hv : ∀ r, a.receiver = ReceiverArg.list r → r < h0.length) :
    ∀ f to2 m, Event.sendmailCall f to2 m ∈ (sendEmail fs oracle client cfg a h0).events →
      to2 = primaryList a h0 ++ a.cc.getD [] ++ a.bcc.getD [] := by
  intro f to2 m hmem
  rw [sendEmail_events_eq] at hmem
  rcases List.mem_append.mp hmem with hb | hl
  · rcases buildMessage_events_log fs cfg a h0 _ hb with ⟨s, hs⟩ | ⟨s, hs⟩ | ⟨s, hs⟩ <;>
      exact absurd hs (by simp)
  · have h3 := sendLoop_sendmailCall (attemptOutcome client oracle) cfg.email
      (heapGet (buildMessage fs cfg a h0).heap (buildMessage fs cfg a h0).recvRef)
      (Message.asString (buildMessage fs cfg a h0).msg) f to2 m hl
    exact h3.2.1.trans (buildMessage_envelope fs cfg a h0 hv)

set_option maxRecDepth 100000 in
/-- C1 (witness): a concrete send with a string receiver, one cc and one bcc
address; the transport is handed exactly their union, in order. -/
theorem sendEmail_recipients_w :
    Event.sendmailCall cfgW.email
        ["to@example.com", "cc@example.com", "bcc@example.com"] msgC1
      ∈ (sendEmail fsAll okOracle (some ()) cfgW argsC1 []).events ∧
    ["to@example.com", "cc@example.com", "bcc@example.com"]
      = primaryList argsC1 [] ++ argsC1.cc.getD [] ++ argsC1.bcc.getD [] :=
  ⟨by decide,
   sendEmail_recipients fsAll okOracle (some ()) cfgW argsC1 []
     (fun r h => by simp [argsC1] at h)
     cfgW.email ["to@example.com", "cc@example.com", "bcc@example.com"] msgC1 (by decide)⟩

/-! ## C8 -/

/-- C8: `close()` never raises, in every state of the sender: when no
connection was ever established it is a no-op (empty trace), and in every
other state — including the one where `quit()` raises — it returns normally,
the quit error being caught and logged. -/
theorem close_never_raises :
    (∀ q : Option PyError, closeRun none q = Except.ok []) ∧
    (∀ (client : Option Client) (q : Option PyError),
        ∃ evs, closeRun client q = Except.ok evs) := by
  constructor
  · intro q; rfl
  · intro client q
    cases client with
    | none => exact ⟨[], rfl⟩
    | some c =>
      cases q with
      | none => exact ⟨_, rfl⟩
      | some e => exact ⟨_, rfl⟩

/-! ## C5 -/

theorem message_eq_of_fields (m1 m2 : Message) (h1 : m1.subtype = m2.subtype)
    (h2 : m1.headers = m2.headers) (h3 : m1.parts = m2.parts) : m1 = m2 := by
  cases m1; cases m2; simp_all

/-- C5: when the attachments list contains a path that does not exist, the
send completes without that attachment and logs a warning: the built message
equals the one built with that path removed (so the remaining attachments are
still added), and the returned result is unchanged — the missing file neither
aborts MIME construction nor makes `send_email` report failure. -/
theorem sendEmail_missing_attachment (fs : FS) (oracle : Nat → Option PyError)
    (client : Option Client) (cfg : EmailConfig) (a : SendArgs) (h0 : Heap)
    (atts : List String) (p : String)
    (hatts : a.attachments = some atts) (hp : p ∈ atts) (hmiss : fs.exists_ p = false) :
    (buildMessage fs cfg a h0).msg
      = (buildMessage fs cfg { a with attachments := some (atts.erase p) } h0).msg ∧
    Event.logWarning ("附件不存在: " ++ p) ∈ (sendEmail fs oracle client cfg a h0).events ∧
    (sendEmail fs oracle client cfg a h0).result
      = (sendEmail fs oracle client cfg { a with attachments := some (atts.erase p) } h0).result := by
  have hne : atts ≠ [] := by
    intro h
    rw [h] at hp
    simp at hp
  have htp : textParts { a with attachments := some (atts.erase p) } = textParts a := rfl
  have hparts : (buildMessage fs cfg a h0).msg.parts
      = (buildMessage fs cfg { a with attachments := some (atts.erase p) } h0).msg.parts := by
    rw [buildMessage_parts_eq, buildMessage_parts_eq, htp, hatts]
    by_cases he : atts.erase p = []
    · simp [truthyOptList, hne, he]
      rw [addAttachments_erase_missing fs p hmiss atts, he]
      rfl
    · simp [truthyOptList, hne, he]
      exact addAttachments_erase_missing fs p hmiss atts _ _
  have hmsg : (buildMessage fs cfg a h0).msg
      = (buildMessage fs cfg { a with attachments := some (atts.erase p) } h0).msg :=
    message_eq_of_fields _ _ rfl rfl hparts
  refine ⟨hmsg, ?_, ?_⟩
  · have hw := addAttachments_warn fs p hmiss atts (textParts a, []) hp
    rw [sendEmail_events_eq]
    refine List.mem_append_left _ ?_
    rw [buildMessage_events_eq, hatts]
    simpa [truthyOptList, hne] using hw
  · have hheap : (buildMessage fs cfg a h0).heap
        = (buildMessage fs cfg { a with attachments := some (atts.erase p) } h0).heap := rfl
    have hrecv : (buildMessage fs cfg a h0).recvRef
        = (buildMessage fs cfg { a with attachments := some (atts.erase p) } h0).recvRef := rfl
    rw [sendEmail_result_eq, sendEmail_result_eq, hheap, hrecv,
        congrArg Message.asString hmsg]

set_option maxRecDepth 100000 in
/-- C5 (witness): a send whose single attachment path does not exist logs the
warning for that path. -/
theorem sendEmail_missing_attachment_w :
    argsC5.attachments = some ["gone.txt"] ∧ "gone.txt" ∈ ["gone.txt"] ∧
    fsNone.exists_ "gone.txt" = false ∧
    Event.logWarning ("附件不存在: " ++ "gone.txt")
      ∈ (sendEmail fsNone okOracle (some ()) cfgW argsC5 []).events :=
  ⟨rfl, by decide, rfl,
   (sendEmail_missing_attachment fsNone okOracle (some ()) cfgW argsC5 []
      ["gone.txt"] "gone.txt" rfl (by decide) rfl).2.1⟩

/-! ## C6 -/

/-- C6: every attachment part added to the outgoing message carries the
`Content-Disposition` type `attachment` and the original file's
final-component name, and its MIME class is image exactly when the
lower-cased extension is `.jpg`, `.jpeg`, `.png` or `.gif`, and a generic
binary application part otherwise. -/
theorem attachment_parts_tagged (fs : FS) (cfg : EmailConfig) (a : SendArgs) (h0 : Heap) :
    ∀ (kind : AttKind) (content : Bytes) (disp fname : String),
      MimePart.attachment kind content disp fname ∈ (buildMessage fs cfg a h0).msg.parts →
      disp = "attachment" ∧
      ∃ p, p ∈ a.attachments.getD [] ∧ fname = pathName p ∧ fs.exists_ p = true ∧
        fs.read p = Except.ok content ∧
        kind = (if lowerString (pathSuffix p) ∈ imageExts then AttKind.image
                else AttKind.application) := by
  intro kind content disp fname hmem
  rw [buildMessage_parts_eq] at hmem
  by_cases ht : truthyOptList a.attachments
  · rw [if_pos ht] at hmem
    rcases addAttachments_parts_mem fs _ _ _ hmem with hacc | ⟨p, hp, hex, c, hread, heq⟩
    · exact absurd hacc (attachment_not_textParts a kind content disp fname)
    · simp only [MimePart.attachment.injEq] at heq
      refine ⟨heq.2.2.1, p, hp, heq.2.2.2, hex, ?_, heq.1⟩
      rw [heq.2.1]
      exact hread
  · rw [if_neg ht] at hmem
    exact absurd hmem (attachment_not_textParts a kind content disp fname)

set_option maxRecDepth 100000 in
/-- C6 (witness): a concrete existing `photo.png` attachment appears as an
image part tagged `attachment` with filename `photo.png`. -/
theorem attachment_parts_tagged_w :
    MimePart.attachment AttKind.image [1, 2] "attachment" "photo.png"
        ∈ (buildMessage fsAll cfgW argsC6 []).msg.parts ∧
    ("attachment" = "attachment" ∧
      ∃ p, p ∈ argsC6.attachments.getD [] ∧ "photo.png" = pathName p ∧
        fsAll.exists_ p = true ∧ fsAll.read p = Except.ok [1, 2] ∧
        AttKind.image = (if lowerString (pathSuffix p) ∈ imageExts then AttKind.image
                         else AttKind.application)) :=
  ⟨by decide,
   attachment_parts_tagged fsAll cfgW argsC6 [] AttKind.image [1, 2] "attachment"
     "photo.png" (by decide)⟩

/-! ## C9 -/

/-- C9: two calls of `send_email` whose arguments differ only in the bcc list
build the same MIME message, so the serialized message handed to every
`sendmail` invocation is identical: bcc addresses enter only the envelope
recipient list and never any header or body part of the message. -/
theorem bcc_not_in_message (fs : FS) (cfg : EmailConfig) (a : SendArgs) (h0 : Heap)
    (b1 b2 : Option (List String)) (oracle : Nat → Option PyError)
    (client : Option Client) :
    (buildMessage fs cfg { a with bcc := b1 } h0).msg
      = (buildMessage fs cfg { a with bcc := b2 } h0).msg ∧
    (∀ f to2 m,
        Event.sendmailCall f to2 m
            ∈ (sendEmail fs oracle client cfg { a with bcc := b1 } h0).events →
        m = Message.asString (buildMessage fs cfg { a with bcc := b2 } h0).msg) := by
  have hmsg : (buildMessage fs cfg { a with bcc := b1 } h0).msg
      = (buildMessage fs cfg { a with bcc := b2 } h0).msg := rfl
  refine ⟨hmsg, ?_⟩
  intro f to2 m hmem
  rw [sendEmail_events_eq] at hmem
  rcases List.mem_append.mp hmem with hb | hl
  · rcases buildMessage_events_log fs cfg _ h0 _ hb with ⟨s, hs⟩ | ⟨s, hs⟩ | ⟨s, hs⟩ <;>
      exact absurd hs (by simp)
  · have h3 := sendLoop_sendmailCall (attemptOutcome client oracle) cfg.email
      (heapGet (buildMessage fs cfg { a with bcc := b1 } h0).heap
        (buildMessage fs cfg { a with bcc := b1 } h0).recvRef)
      (Message.asString (buildMessage fs cfg { a with bcc := b1 } h0).msg) f to2 m hl
    exact h3.2.2.trans (congrArg Message.asString hmsg)

set_option maxRecDepth 100000 in
/-- C9 (witness): with bcc `["x@y"]` the transport is handed the very message
string built with no bcc at all. -/
theorem bcc_not_in_message_w :
    Event.sendmailCall cfgW.email ["to@example.com", "x@y"] msgC9
        ∈ (sendEmail fsAll okOracle (some ()) cfgW { argsC9 with bcc := some ["x@y"] } []).events ∧
    msgC9 = Message.asString (buildMessage fsAll cfgW { argsC9 with bcc := none } []).msg :=
  ⟨by decide,
   (bcc_not_in_message fsAll cfgW argsC9 [] (some ["x@y"]) none okOracle (some ())).2
     cfgW.email ["to@example.com", "x@y"] msgC9 (by decide)⟩

/-! ## C10 -/

/-- C10: when `receiver` is passed as a list, `send_email` mutates that
caller-owned list in place — after the call the caller's cell holds its old
value with the cc addresses (when present) and then the bcc addresses (when
present) appended, the list being aliased rather than copied; when `receiver`
is a string, every caller-owned cell is left unchanged. -/
theorem receiver_list_mutation (fs : FS) (oracle : Nat → Option PyError)
    (client : Option Client) (cfg : EmailConfig) (a : SendArgs) (h0 : Heap) :
    (∀ r, a.receiver = ReceiverArg.list r → r < h0.length →
        heapGet (sendEmail fs oracle client cfg a h0).heap r
          = heapGet h0 r ++ a.cc.getD [] ++ a.bcc.getD []) ∧
    (∀ s, a.receiver = ReceiverArg.str s →
        ∀ r, r < h0.length →
          heapGet (sendEmail fs oracle client cfg a h0).heap r = heapGet h0 r) := by
  constructor
  · intro r ha hr
    rw [sendEmail_heap_eq]
    have hv : ∀ rr, a.receiver = ReceiverArg.list rr → rr < h0.length := by
      intro rr harr
      rw [ha] at harr
      injection harr with h2
      rw [← h2]
      exact hr
    have h1 := buildMessage_envelope fs cfg a h0 hv
    rw [buildMessage_recvRef_list fs cfg a h0 r ha] at h1
    rw [h1]
    simp [primaryList, ha]
  · intro s ha r hr
    rw [sendEmail_heap_eq]
    exact buildMessage_frame_str fs cfg a h0 s ha r hr

set_option maxRecDepth 100000 in
/-- C10 (witness): a caller list `["x@y"]` at cell 0 ends the call holding
`["x@y", "cc@example.com", "bcc@example.com"]`. -/
theorem receiver_list_mutation_w :
    argsC10.receiver = ReceiverArg.list 0 ∧ 0 < ([["x@y"]] : Heap).length ∧
    heapGet (sendEmail fsAll okOracle (some ()) cfgW argsC10 [["x@y"]]).heap 0
      = heapGet ([["x@y"]] : Heap) 0 ++ argsC10.cc.getD [] ++ argsC10.bcc.getD [] :=
  ⟨rfl, by decide,
   (receiver_list_mutation fsAll okOracle (some ()) cfgW argsC10 [["x@y"]]).1 0 rfl
     (by decide)⟩

/-! ## C7 -/

/-- C7: the send phase itself never emits the close marker, and in every run
of the top-level flow in which the sender was constructed — whatever the
connect outcome, and whether the send step returns success, returns failure
or raises — `close()` is invoked exactly once when the `with` scope ends. -/
theorem close_called_exactly_once :
    (∀ (fs : FS) (oracle : Nat → Option PyError) (client : Option Client)
        (cfg : EmailConfig) (a : SendArgs) (h0 : Heap),
        (sendEmail fs oracle client cfg a h0).events.countP isCloseInvoked = 0) ∧
    (∀ (co : Nat → Option PyError) (bodyRes : Except PyError (Option Bool))
        (bodyEvs : List Event) (client : Option Client) (q : Option PyError),
        bodyEvs.countP isCloseInvoked = 0 →
        (mainFlow co bodyRes bodyEvs client q).countP isCloseInvoked = 1) := by
  constructor
  · intro fs oracle client cfg a h0
    rw [sendEmail_events_eq, List.countP_append]
    have h1 : (buildMessage fs cfg a h0).events.countP isCloseInvoked = 0 := by
      rw [List.countP_eq_zero]
      intro e he
      rcases buildMessage_events_log fs cfg a h0 e he with ⟨s, hs⟩ | ⟨s, hs⟩ | ⟨s, hs⟩ <;>
        simp [hs, isCloseInvoked]
    rw [h1, sendLoop_no_close]
  · intro co bodyRes bodyEvs client q hb
    have hconn := connect_no_close co
    have hclose := closeRun_no_close client q
    cases bodyRes with
    | error e =>
      simp [mainFlow, pyWith, List.countP_append, List.countP_cons, hconn, hclose, hb,
            isCloseInvoked]
    | ok b =>
      by_cases hbt : b = some true <;>
        simp [mainFlow, pyWith, List.countP_append, List.countP_cons, hconn, hclose, hb,
              hbt, isCloseInvoked]

/-- C7 (witness): a run whose send step emits no close marker and returns
success invokes `close()` exactly once. -/
theorem close_called_exactly_once_w :
    List.countP isCloseInvoked ([] : List Event) = 0 ∧
    (mainFlow okOracle (Except.ok (some true)) [] none none).countP isCloseInvoked = 1 :=
  ⟨rfl, close_called_exactly_once.2 okOracle (Except.ok (some true)) [] none none rfl⟩

end AutoEmail
